import Mathlib

/-!
Verification of the Boundly app-blocking policy.

This file gives a shallow embedding of the blocking decision engine of the
Boundly React Native application and proves the behavioural properties of its
specification against it.  The embedded functions are direct translations of:

* `src/features/blocking/useBlockingService.ts` (the JS policy evaluation
  `checkForBlockedApp`, the active-limit gate and the start/stop effect);
* `android/.../BlockingService.kt` (the native foreground-service tick
  `checkAndBlock`, `shouldBlockApp`, `getCurrentUsage`, `getForegroundApp`);
* `android/.../AppBlockingAccessibilityService.kt` (the accessibility-event
  path `onAccessibilityEvent` / `shouldBlockApp`);
* `android/.../ForegroundAppModuleImpl.kt` (`getCurrentForegroundApp`);
* `android/.../UsageStatsModuleImpl.kt` (the 24h usage cap of
  `getTodayUsageStats`);
* `src/stores/useLimitsStore.ts` (`setLimit` / `getLimit` / `removeLimit`).

Modelling conventions: millisecond quantities (JS numbers, Kotlin Longs) are
integers; a JS `Record<string, number>` and a Kotlin `Map<String, Long>` are
modelled by their lookup function `String → Option Int`; a nullable value is
an `Option`; an OS call that may throw is an `Except Unit` value in the tick
environment, and a `try`/`catch` block is a `match` on it.  One policy
evaluation is modelled against a fixed snapshot of the OS state (limits,
usage samples, foreground identity), which is read fresh on every tick.
-/

namespace Boundly

/-- Milliseconds, as stored in JS numbers and Kotlin Longs. -/
abbrev Ms := Int

/-- An entry of the selection list (`useAppStore.selectedApps`). -/
structure SelectedApp where
  packageName : String
  appName : String
deriving DecidableEq, Repr

/-- The `BlockedApp` record set by `useBlockingService.checkForBlockedApp`
(the spec's `BlockState`). -/
structure BlockedApp where
  packageName : String
  appName : String
  usageMs : Ms
  limitMs : Ms
deriving DecidableEq, Repr

/-- A JS `Record<string, number>` / Kotlin `Map<String, Long>`, modelled by
its key lookup. -/
abbrev NumMap := String → Option Ms

/-- The JS lookup `currentUsage[p] || 0` (absent packages count as 0). -/
def usageOrZero (todayUsage : NumMap) (packageName : String) : Ms :=
  (todayUsage packageName).getD 0

/-- The gate of `useBlockingService`: `selectedApps.some(app => limit !==
undefined && limit > 0)` (lines 88-91 and 122-125). -/
def hasActiveLimits (selectedApps : List SelectedApp) (limits : NumMap) : Bool :=
  selectedApps.any fun app =>
    match limits app.packageName with
    | some l => decide (l > 0)
    | none => false

/-- The scan loop of `checkForBlockedApp` (useBlockingService.ts lines
142-169): for each selected app in order, skip when the limit is absent or 0;
when `usageMs >= limitMs`, emit a `BlockedApp` if the foreground package
matches or the foreground identity is unknown (`null`), stopping at the first
match; otherwise continue. -/
def scanSelectedApps (limits todayUsage : NumMap) (foregroundApp : Option String) :
    List SelectedApp → Option BlockedApp
  | [] => none
  | app :: rest =>
    match limits app.packageName with
    | none => scanSelectedApps limits todayUsage foregroundApp rest
    | some limitMs =>
      if limitMs = 0 then scanSelectedApps limits todayUsage foregroundApp rest
      else
        if limitMs ≤ usageOrZero todayUsage app.packageName then
          if foregroundApp = some app.packageName ∨ foregroundApp = none then
            some ⟨app.packageName, app.appName, usageOrZero todayUsage app.packageName, limitMs⟩
          else scanSelectedApps limits todayUsage foregroundApp rest
        else scanSelectedApps limits todayUsage foregroundApp rest

/-- The JS policy evaluation `checkForBlockedApp` (useBlockingService.ts lines
116-176): with no active limits the blocked app is cleared and nothing is
scanned; otherwise the selection list is scanned in insertion order. -/
def checkForBlockedApp (selectedApps : List SelectedApp) (limits todayUsage : NumMap)
    (foregroundApp : Option String) : Option BlockedApp :=
  if hasActiveLimits selectedApps limits then
    scanSelectedApps limits todayUsage foregroundApp selectedApps
  else none

/-- Whether a selected app fires in the scan of `checkForBlockedApp`: its limit
is present and non-zero, its usage (0 when absent) has reached the limit, and
the foreground identity matches it or is unknown. -/
def firesB (limits todayUsage : NumMap) (foregroundApp : Option String)
    (app : SelectedApp) : Bool :=
  match limits app.packageName with
  | none => false
  | some limitMs =>
    if limitMs = 0 then false
    else
      decide (limitMs ≤ usageOrZero todayUsage app.packageName) &&
      decide (foregroundApp = some app.packageName ∨ foregroundApp = none)

/-- The `BlockedApp` built from a firing selected app. -/
def mkBlock (limits todayUsage : NumMap) (app : SelectedApp) : BlockedApp :=
  ⟨app.packageName, app.appName, usageOrZero todayUsage app.packageName,
    (limits app.packageName).getD 0⟩

theorem scanSelectedApps_eq_find (limits todayUsage : NumMap)
    (foregroundApp : Option String) (sel : List SelectedApp) :
    scanSelectedApps limits todayUsage foregroundApp sel =
      (sel.find? (firesB limits todayUsage foregroundApp)).map
        (mkBlock limits todayUsage) := by
  induction sel with
  | nil => rfl
  | cons app rest ih =>
    simp only [scanSelectedApps, List.find?]
    cases hL : limits app.packageName with
    | none =>
      have : firesB limits todayUsage foregroundApp app = false := by
        simp [firesB, hL]
      simp [this, ih]
    | some limitMs =>
      by_cases h0 : limitMs = 0
      · have : firesB limits todayUsage foregroundApp app = false := by
          simp [firesB, hL, h0]
        simp [h0, this, ih]
      · by_cases hu : limitMs ≤ usageOrZero todayUsage app.packageName
        · by_cases hfg : foregroundApp = some app.packageName ∨ foregroundApp = none
          · have : firesB limits todayUsage foregroundApp app = true := by
              simp [firesB, hL, h0, hu, hfg]
            simp [h0, hu, hfg, this, mkBlock, hL]
          · have : firesB limits todayUsage foregroundApp app = false := by
              simp only [firesB, hL, if_neg h0, Bool.and_eq_false_iff]
              right
              simpa using hfg
            simp [h0, hu, hfg, this, ih]
        · have : firesB limits todayUsage foregroundApp app = false := by
            simp only [firesB, hL, if_neg h0, Bool.and_eq_false_iff]
            left
            simpa using hu
          simp [h0, hu, this, ih]

theorem checkForBlockedApp_some (sel : List SelectedApp) (limits todayUsage : NumMap)
    (foregroundApp : Option String) (b : BlockedApp)
    (h : checkForBlockedApp sel limits todayUsage foregroundApp = some b) :
    limits b.packageName = some b.limitMs ∧ b.limitMs ≠ 0 ∧
      b.usageMs = usageOrZero todayUsage b.packageName ∧
      b.limitMs ≤ b.usageMs ∧
      (foregroundApp = some b.packageName ∨ foregroundApp = none) := by
  unfold checkForBlockedApp at h
  by_cases hgate : hasActiveLimits sel limits
  · rw [if_pos hgate, scanSelectedApps_eq_find] at h
    obtain ⟨app, hfind, hb⟩ := Option.map_eq_some'.mp h
    have hfires := List.find?_some hfind
    unfold firesB at hfires
    cases hL : limits app.packageName with
    | none => rw [hL] at hfires; simp at hfires
    | some limitMs =>
      rw [hL] at hfires
      have hfires' : (if limitMs = 0 then false
          else decide (limitMs ≤ usageOrZero todayUsage app.packageName) &&
            decide (foregroundApp = some app.packageName ∨ foregroundApp = none)) = true :=
        hfires
      clear hfires
      by_cases h0 : limitMs = 0
      · rw [if_pos h0] at hfires'; simp at hfires'
      · rw [if_neg h0, Bool.and_eq_true, decide_eq_true_eq, decide_eq_true_eq] at hfires'
        have hfires := hfires'
        subst hb
        refine ⟨?_, ?_, rfl, ?_, ?_⟩
        · simp [mkBlock, hL]
        · simpa [mkBlock, hL] using h0
        · simpa [mkBlock, hL] using hfires.1
        · simpa [mkBlock] using hfires.2
  · rw [if_neg hgate] at h
    exact absurd h (by simp)

/-- A usage-stats entry as returned by `UsageStatsManager.queryUsageStats`
(`packageName`, `totalTimeInForeground`). -/
structure UsageStat where
  packageName : String
  totalTimeInForeground : Ms
deriving DecidableEq, Repr

/-- A running-process entry as returned by
`ActivityManager.runningAppProcesses`. -/
structure ProcessInfo where
  importance : Int
  pkgList : List String
deriving DecidableEq, Repr

/-- `ActivityManager.RunningAppProcessInfo.IMPORTANCE_FOREGROUND`. -/
def IMPORTANCE_FOREGROUND : Int := 100

/-- The blocking configuration stored in the `blocking_config`
SharedPreferences: the parsed selected-apps array and limits object. -/
structure BlockingConfig where
  selectedApps : List String
  limits : NumMap

namespace BlockingService

/-- `BlockingService.getCurrentUsage` (BlockingService.kt lines 296-321): find
the package's stat in today's query result and return its raw
`totalTimeInForeground`, 0 when absent.  There is no 24h cap on this path. -/
def getCurrentUsage (stats : List UsageStat) (packageName : String) : Ms :=
  match stats.find? (fun s => s.packageName == packageName) with
  | some s => s.totalTimeInForeground
  | none => 0

/-- `BlockingService.BlockInfo`. -/
structure BlockInfo where
  appName : String
  usageMs : Ms
  limitMs : Ms
deriving DecidableEq, Repr

/-- `BlockingService.shouldBlockApp` (BlockingService.kt lines 252-294),
parameterised by the usage lookup of the tick and the app-label resolution
(the package-manager label or its fallback): `null` unless the package is
selected and has a limit `> 0`; otherwise `(usage >= limit, info)`. -/
def shouldBlockAppWith (cfg : BlockingConfig) (usageOf : String → Ms)
    (appLabel : String → String) (packageName : String) : Option (Bool × BlockInfo) :=
  if packageName ∈ cfg.selectedApps then
    match cfg.limits packageName with
    | none => none
    | some limitMs =>
      if limitMs ≤ 0 then none
      else
        some (decide (limitMs ≤ usageOf packageName),
          ⟨appLabel packageName, usageOf packageName, limitMs⟩)
  else none

/-- `BlockingService.shouldBlockApp` against a concrete usage-stats query
result. -/
def shouldBlockApp (cfg : BlockingConfig) (stats : List UsageStat)
    (appLabel : String → String) (packageName : String) : Option (Bool × BlockInfo) :=
  shouldBlockAppWith cfg (getCurrentUsage stats) appLabel packageName

/-- `BlockingService.getForegroundApp` (BlockingService.kt lines 227-248):
scan the running processes for one with foreground importance whose first
package is not the host package; the host package is skipped, not returned. -/
def getForegroundApp (host : String) : List ProcessInfo → Option String
  | [] => none
  | proc :: rest =>
    if proc.importance = IMPORTANCE_FOREGROUND then
      match proc.pkgList.head? with
      | some pkg => if pkg ≠ host then some pkg else getForegroundApp host rest
      | none => getForegroundApp host rest
    else getForegroundApp host rest

/-- Outcome of one `checkAndBlock` tick. `stopped` is the `stopSelf` path for
an empty config, `errorLogged` the outer `catch` (`Log.e`, nothing else),
`blocked` the path that stores the blocked app and redirects, `cleared` the
path that clears the stored blocked app, `noAction` every other early
return. -/
inductive TickOutcome
  | stopped
  | errorLogged
  | noAction
  | blocked (packageName : String) (info : BlockInfo)
  | cleared
deriving DecidableEq, Repr

/-- The OS state one tick runs against.  Fallible OS reads are `Except`
values: an `error` is an exception thrown by that read on this tick. -/
structure TickEnv where
  host : String
  configRead : Except Unit BlockingConfig
  procQuery : Except Unit (List ProcessInfo)
  usageQuery : Except Unit (List UsageStat)
  appLabel : String → String

/-- `getForegroundApp` with its internal `try`/`catch`: a throwing process
query yields `null`. -/
def getForegroundAppCaught (env : TickEnv) : Option String :=
  match env.procQuery with
  | .error _ => none
  | .ok procs => getForegroundApp env.host procs

/-- `getCurrentUsage` with its internal `try`/`catch`: a throwing usage query
yields 0. -/
def getCurrentUsageCaught (env : TickEnv) (packageName : String) : Ms :=
  match env.usageQuery with
  | .error _ => 0
  | .ok stats => getCurrentUsage stats packageName

/-- `BlockingService.checkAndBlock` (BlockingService.kt lines 172-225): read
the stored config (a throw reaches the outer `catch` and is only logged); stop
the service when no apps are selected; query the foreground app (`null` ends
the tick); skip the host app; evaluate `shouldBlockApp` and either store the
block and redirect, or clear the stored block. -/
def checkAndBlock (env : TickEnv) : TickOutcome :=
  match env.configRead with
  | .error _ => .errorLogged
  | .ok cfg =>
    if cfg.selectedApps = [] then .stopped
    else
      match getForegroundAppCaught env with
      | none => .noAction
      | some fg =>
        if fg = env.host then .noAction
        else
          match shouldBlockAppWith cfg (getCurrentUsageCaught env) env.appLabel fg with
          | none => .noAction
          | some (shouldBlock, info) =>
            if shouldBlock then .blocked fg info else .cleared

/-- The monitoring loop: `scheduleWithFixedDelay` re-runs `checkAndBlock`
every interval.  The service keeps no state between ticks (no failure counter,
no backoff), so a run over successive OS snapshots is tick-by-tick. -/
def runTicks : List TickEnv → List TickOutcome
  | [] => []
  | env :: rest => checkAndBlock env :: runTicks rest

end BlockingService

namespace AccessibilityService

/-- `AppBlockingAccessibilityService.shouldBlockApp`
(AppBlockingAccessibilityService.kt lines 80-111): false unless the package is
selected with a limit `> 0`; otherwise compare the raw (uncapped) usage
against the limit. -/
def shouldBlockApp (cfg : BlockingConfig) (stats : List UsageStat)
    (packageName : String) : Bool :=
  if packageName ∈ cfg.selectedApps then
    match cfg.limits packageName with
    | none => false
    | some limitMs =>
      if limitMs ≤ 0 then false
      else decide (limitMs ≤ BlockingService.getCurrentUsage stats packageName)
  else false

/-- Accessibility event types relevant to the service. -/
inductive EventType
  | windowStateChanged
  | other
deriving DecidableEq, Repr

/-- An accessibility event: its type and nullable source package. -/
structure AccessibilityEvent where
  eventType : EventType
  packageName : Option String
deriving DecidableEq, Repr

/-- `AppBlockingAccessibilityService.onAccessibilityEvent`
(AppBlockingAccessibilityService.kt lines 52-74), returning the package passed
to `blockApp`, or `none` when the event is skipped or no block is issued.
Null events, non-window-state events, null packages and the host's own package
are skipped. -/
def onAccessibilityEvent (host : String) (cfg : BlockingConfig)
    (stats : List UsageStat) : Option AccessibilityEvent → Option String
  | none => none
  | some event =>
    if event.eventType = .windowStateChanged then
      match event.packageName with
      | none => none
      | some packageName =>
        if packageName = host then none
        else if shouldBlockApp cfg stats packageName then some packageName else none
    else none

end AccessibilityService

namespace ForegroundAppModule

/-- The `{packageName, appName}` map resolved by
`ForegroundAppModuleImpl.getCurrentForegroundApp`. -/
structure ForegroundApp where
  packageName : String
  appName : String
deriving DecidableEq, Repr

/-- `ForegroundAppModuleImpl.getForegroundAppAndroid10Plus`
(ForegroundAppModuleImpl.kt lines 69-82): the first package of the first
process with foreground importance, with no host exclusion at this level. -/
def getForegroundAppAndroid10Plus : List ProcessInfo → Option String
  | [] => none
  | proc :: rest =>
    if proc.importance = IMPORTANCE_FOREGROUND then
      match proc.pkgList.head? with
      | some pkg => some pkg
      | none => getForegroundAppAndroid10Plus rest
    else getForegroundAppAndroid10Plus rest

/-- `ForegroundAppModuleImpl.getCurrentForegroundApp`
(ForegroundAppModuleImpl.kt lines 29-67): resolve `null` when no foreground
process is found, when the detected package is the host package, or when its
application label cannot be resolved (`NameNotFoundException`). -/
def getCurrentForegroundApp (host : String) (procs : List ProcessInfo)
    (appLabel : String → Option String) : Option ForegroundApp :=
  match getForegroundAppAndroid10Plus procs with
  | none => none
  | some packageName =>
    if packageName = host then none
    else
      match appLabel packageName with
      | none => none
      | some appName => some ⟨packageName, appName⟩

end ForegroundAppModule

namespace UsageStatsModule

/-- The 24h cap of `UsageStatsModuleImpl.getTodayUsageStats`
(UsageStatsModuleImpl.kt line 293): `24 * 60 * 60 * 1000` ms. -/
def maxDailyUsage : Ms := 24 * 60 * 60 * 1000

/-- The per-package usage map built by `getTodayUsageStats`
(UsageStatsModuleImpl.kt lines 291-299): each stat's `totalTimeInForeground`
capped with `minOf(usage, maxDailyUsage)`, later entries overwriting earlier
ones as in the `HashMap` assignment. -/
def usageStatsMap (stats : List UsageStat) : NumMap :=
  stats.foldl
    (fun m stat => fun p =>
      if p = stat.packageName then some (min stat.totalTimeInForeground maxDailyUsage)
      else m p)
    (fun _ => none)

end UsageStatsModule

namespace LimitsStore

/-- `useLimitsStore.setLimit` (useLimitsStore.ts lines 35-42): the spread
`{...state.limits, [packageName]: limitMs}` observed through key lookup. -/
def setLimit (limits : NumMap) (packageName : String) (limitMs : Ms) : NumMap :=
  fun p => if p = packageName then some limitMs else limits p

/-- `useLimitsStore.removeLimit` (useLimitsStore.ts lines 48-55): the
destructuring removal of the key, observed through key lookup. -/
def removeLimit (limits : NumMap) (packageName : String) : NumMap :=
  fun p => if p = packageName then none else limits p

/-- `useLimitsStore.getLimit` (useLimitsStore.ts lines 44-46). -/
def getLimit (limits : NumMap) (packageName : String) : Option Ms :=
  limits packageName

end LimitsStore

/-- The start/stop decision of the `useBlockingService` effect. -/
inductive ServiceAction
  | start
  | stop
deriving DecidableEq, Repr

/-- The `useBlockingService` effect on selection/limit changes
(useBlockingService.ts lines 82-98): start the service when some selected app
has a limit `> 0`, stop it otherwise. -/
def serviceEffect (selectedApps : List SelectedApp) (limits : NumMap) : ServiceAction :=
  if hasActiveLimits selectedApps limits then .start else .stop

/-- One `checkForBlockedApp` evaluation together with the number of OS queries
it issued: `usageQueries` counts `refreshUsage` calls and
`foregroundQueries` counts `getCurrentForegroundApp` calls. -/
structure CheckTrace where
  result : Option BlockedApp
  usageQueries : Nat
  foregroundQueries : Nat
deriving DecidableEq, Repr

/-- The scan loop of `checkForBlockedApp`, instrumented with the number of
foreground queries it issues (one per candidate whose usage has reached its
limit, the query being inside the loop at useBlockingService.ts line 152). -/
def scanSelectedAppsTraced (limits todayUsage : NumMap) (foregroundApp : Option String) :
    List SelectedApp → Option BlockedApp × Nat
  | [] => (none, 0)
  | app :: rest =>
    match limits app.packageName with
    | none => scanSelectedAppsTraced limits todayUsage foregroundApp rest
    | some limitMs =>
      if limitMs = 0 then scanSelectedAppsTraced limits todayUsage foregroundApp rest
      else
        if limitMs ≤ usageOrZero todayUsage app.packageName then
          if foregroundApp = some app.packageName ∨ foregroundApp = none then
            (some ⟨app.packageName, app.appName, usageOrZero todayUsage app.packageName, limitMs⟩, 1)
          else
            ((scanSelectedAppsTraced limits todayUsage foregroundApp rest).1,
              (scanSelectedAppsTraced limits todayUsage foregroundApp rest).2 + 1)
        else scanSelectedAppsTraced limits todayUsage foregroundApp rest

/-- `checkForBlockedApp` instrumented with its OS queries: with no active
limits it returns before `refreshUsage` and before the scan (no queries at
all, useBlockingService.ts lines 122-130); otherwise it refreshes usage once
and scans. -/
def checkForBlockedAppTraced (selectedApps : List SelectedApp) (limits todayUsage : NumMap)
    (foregroundApp : Option String) : CheckTrace :=
  if hasActiveLimits selectedApps limits then
    ⟨(scanSelectedAppsTraced limits todayUsage foregroundApp selectedApps).1, 1,
      (scanSelectedAppsTraced limits todayUsage foregroundApp selectedApps).2⟩
  else ⟨none, 0, 0⟩

theorem scanSelectedAppsTraced_fst (limits todayUsage : NumMap)
    (foregroundApp : Option String) (sel : List SelectedApp) :
    (scanSelectedAppsTraced limits todayUsage foregroundApp sel).1 =
      scanSelectedApps limits todayUsage foregroundApp sel := by
  induction sel with
  | nil => rfl
  | cons app rest ih =>
    simp only [scanSelectedAppsTraced, scanSelectedApps]
    cases limits app.packageName with
    | none => exact ih
    | some limitMs =>
      by_cases h0 : limitMs = 0
      · simp only [if_pos h0]; exact ih
      · simp only [if_neg h0]
        by_cases hu : limitMs ≤ usageOrZero todayUsage app.packageName
        · simp only [if_pos hu]
          by_cases hfg : foregroundApp = some app.packageName ∨ foregroundApp = none
          · simp [hfg]
          · simp [hfg, ih]
        · simp only [if_neg hu]; exact ih

theorem firesB_eq_true_iff (limits todayUsage : NumMap) (foregroundApp : Option String)
    (app : SelectedApp) :
    firesB limits todayUsage foregroundApp app = true ↔
      ∃ L, limits app.packageName = some L ∧ L ≠ 0 ∧
        L ≤ usageOrZero todayUsage app.packageName ∧
        (foregroundApp = some app.packageName ∨ foregroundApp = none) := by
  unfold firesB
  cases hL : limits app.packageName with
  | none => simp
  | some L =>
    by_cases h0 : L = 0
    · simp [h0]
    · simp only [if_neg h0, Bool.and_eq_true, decide_eq_true_eq, Option.some.injEq]
      constructor
      · rintro ⟨hu, hfg⟩
        exact ⟨L, rfl, h0, hu, hfg⟩
      · rintro ⟨L', hL', _, hu, hfg⟩
        subst hL'
        exact ⟨hu, hfg⟩

theorem hasActiveLimits_of_mem (sel : List SelectedApp) (limits : NumMap)
    (app : SelectedApp) (L : Ms) (hmem : app ∈ sel)
    (hL : limits app.packageName = some L) (hpos : 0 < L) :
    hasActiveLimits sel limits = true := by
  unfold hasActiveLimits
  rw [List.any_eq_true]
  refine ⟨app, hmem, ?_⟩
  rw [hL]
  exact decide_eq_true hpos

theorem hasActiveLimits_eq_false (sel : List SelectedApp) (limits : NumMap)
    (h : ∀ p L, limits p = some L → L ≤ 0) :
    hasActiveLimits sel limits = false := by
  unfold hasActiveLimits
  rw [List.any_eq_false]
  intro app _
  cases hL : limits app.packageName with
  | none => simp
  | some L =>
    have hle := h _ _ hL
    intro hcontra
    have hcontra' : decide (L > 0) = true := hcontra
    exact absurd (of_decide_eq_true hcontra') (not_lt.mpr hle)

theorem shouldBlockAppWith_some (cfg : BlockingConfig) (usageOf : String → Ms)
    (appLabel : String → String) (packageName : String)
    (r : Bool × BlockingService.BlockInfo)
    (h : BlockingService.shouldBlockAppWith cfg usageOf appLabel packageName = some r) :
    packageName ∈ cfg.selectedApps ∧
      ∃ limitMs, cfg.limits packageName = some limitMs ∧ 0 < limitMs ∧
        r = (decide (limitMs ≤ usageOf packageName),
          ⟨appLabel packageName, usageOf packageName, limitMs⟩) := by
  unfold BlockingService.shouldBlockAppWith at h
  by_cases hmem : packageName ∈ cfg.selectedApps
  · rw [if_pos hmem] at h
    cases hL : cfg.limits packageName with
    | none => rw [hL] at h; exact absurd h (by simp)
    | some limitMs =>
      rw [hL] at h
      have h' : (if limitMs ≤ 0 then none
          else some (decide (limitMs ≤ usageOf packageName),
            (⟨appLabel packageName, usageOf packageName, limitMs⟩ :
              BlockingService.BlockInfo))) = some r := h
      clear h
      by_cases hle : limitMs ≤ 0
      · rw [if_pos hle] at h'; exact absurd h' (by simp)
      · rw [if_neg hle] at h'
        refine ⟨hmem, limitMs, rfl, lt_of_not_le hle, ?_⟩
        injection h' with h''
        exact h''.symm
  · rw [if_neg hmem] at h
    exact absurd h (by simp)

theorem checkAndBlock_blocked_inv (env : BlockingService.TickEnv) (p : String)
    (info : BlockingService.BlockInfo)
    (h : BlockingService.checkAndBlock env = .blocked p info) :
    ∃ cfg, env.configRead = .ok cfg ∧ cfg.selectedApps ≠ [] ∧
      BlockingService.getForegroundAppCaught env = some p ∧ p ≠ env.host ∧
      BlockingService.shouldBlockAppWith cfg (BlockingService.getCurrentUsageCaught env)
        env.appLabel p = some (true, info) := by
  unfold BlockingService.checkAndBlock at h
  split at h
  · exact absurd h (by simp)
  · rename_i cfg hcfg
    split at h
    · exact absurd h (by simp)
    · rename_i hsel
      split at h
      · exact absurd h (by simp)
      · rename_i fg hfg
        split at h
        · exact absurd h (by simp)
        · rename_i hhost
          split at h
          · exact absurd h (by simp)
          · rename_i shouldBlock info' hsb
            split at h
            · rename_i hb
              have hfgp : fg = p := by injection h
              have hinfo : info' = info := by injection h
              subst hfgp; subst hinfo; subst hb
              exact ⟨cfg, hcfg, hsel, hfg, hhost, hsb⟩
            · exact absurd h (by simp)

theorem usageStatsMap_foldl_le (stats : List UsageStat) (m : NumMap)
    (hm : ∀ p u, m p = some u → u ≤ UsageStatsModule.maxDailyUsage) :
    ∀ p u,
      (stats.foldl
        (fun m stat => fun p =>
          if p = stat.packageName then
            some (min stat.totalTimeInForeground UsageStatsModule.maxDailyUsage)
          else m p) m) p = some u →
      u ≤ UsageStatsModule.maxDailyUsage := by
  induction stats generalizing m with
  | nil => exact hm
  | cons stat rest ih =>
    intro p u h
    refine ih _ ?_ p u h
    intro q v hv
    have hv' : (if q = stat.packageName then
        some (min stat.totalTimeInForeground UsageStatsModule.maxDailyUsage)
      else m q) = some v := hv
    by_cases hq : q = stat.packageName
    · rw [if_pos hq] at hv'
      obtain rfl : min stat.totalTimeInForeground UsageStatsModule.maxDailyUsage = v := by
        injection hv'
      exact min_le_right _ _
    · rw [if_neg hq] at hv'
      exact hm q v hv'

/-- The spec scenario's limit map: com.x limited to one minute (60000 ms). -/
def exLimits : NumMap := fun p => if p = "com.x" then some 60000 else none

/-- The spec scenario's usage sample: com.x used for exactly one minute. -/
def exUsage : NumMap := fun p => if p = "com.x" then some 60000 else none

/-- The selection list containing com.x. -/
def exSelection : List SelectedApp := [⟨"com.x", "X"⟩]

/-- Claim C1, counterexample: com.x has a configured limit 60000 > 0, is the
current foreground package, and its usage 60000 has met the limit, yet with a
selection list that does not contain com.x the policy emits no BlockState.
The claim's "emits if u >= L" direction fails for a package outside the
selection list. -/
theorem checkForBlockedApp_unselected_not_blocked :
    exLimits "com.x" = some 60000 ∧ (0 : Ms) < 60000 ∧
    usageOrZero exUsage "com.x" = 60000 ∧
    checkForBlockedApp [] exLimits exUsage (some "com.x") = none :=
  ⟨rfl, by decide, rfl, rfl⟩

/-- Claim C1 (amended: the package must also be in the selection list): for
every selected app with a configured limit L > 0 that is the current
foreground package, the policy emits a BlockState for it — carrying its usage
and its limit — if and only if its usage for today (0 when absent) satisfies
u >= L; so u = L yields a BlockState with that usage and limit, and u = L - 1
yields none. -/
theorem checkForBlockedApp_foreground_iff
    (sel : List SelectedApp) (limits todayUsage : NumMap)
    (app : SelectedApp) (L : Ms)
    (hmem : app ∈ sel)
    (hL : limits app.packageName = some L) (hLpos : 0 < L) :
    (∃ b, checkForBlockedApp sel limits todayUsage (some app.packageName) = some b ∧
        b.packageName = app.packageName ∧
        b.usageMs = usageOrZero todayUsage app.packageName ∧ b.limitMs = L) ↔
      L ≤ usageOrZero todayUsage app.packageName := by
  constructor
  · rintro ⟨b, hb, hpkg, husage, hlim⟩
    obtain ⟨_, _, _, h4, _⟩ := checkForBlockedApp_some _ _ _ _ _ hb
    rw [hlim, husage] at h4
    exact h4
  · intro hu
    have hgate := hasActiveLimits_of_mem sel limits app L hmem hL hLpos
    have hfires : firesB limits todayUsage (some app.packageName) app = true :=
      (firesB_eq_true_iff _ _ _ _).mpr ⟨L, hL, ne_of_gt hLpos, hu, Or.inl rfl⟩
    have hsome : (sel.find? (firesB limits todayUsage (some app.packageName))).isSome :=
      List.find?_isSome.mpr ⟨app, hmem, hfires⟩
    obtain ⟨app', heq⟩ := Option.isSome_iff_exists.mp hsome
    obtain ⟨L', hL', _, _, hfg'⟩ := (firesB_eq_true_iff _ _ _ _).mp (List.find?_some heq)
    have hpkg' : app'.packageName = app.packageName := by
      rcases hfg' with hfg' | hfg'
      · exact (Option.some.injEq _ _ ▸ hfg').symm
      · exact absurd hfg' (by simp)
    refine ⟨mkBlock limits todayUsage app', ?_, ?_, ?_, ?_⟩
    · unfold checkForBlockedApp
      rw [if_pos hgate, scanSelectedApps_eq_find, heq, Option.map_some']
    · exact hpkg'
    · show usageOrZero todayUsage app'.packageName = usageOrZero todayUsage app.packageName
      rw [hpkg']
    · show (limits app'.packageName).getD 0 = L
      rw [hpkg', hL, Option.getD_some]

/-- Claim C1 (witness for the amended theorem): the spec scenario with com.x
selected — limit 60000, usage 60000, foreground com.x — emits the BlockState
for com.x with usage 60000 and limit 60000. -/
theorem checkForBlockedApp_foreground_iff_witness :
    ∃ b, checkForBlockedApp exSelection exLimits exUsage (some "com.x") = some b ∧
      b.packageName = "com.x" ∧
      b.usageMs = usageOrZero exUsage "com.x" ∧ b.limitMs = 60000 :=
  (checkForBlockedApp_foreground_iff exSelection exLimits exUsage ⟨"com.x", "X"⟩ 60000
    (by simp [exSelection]) rfl (by decide)).mpr (by decide)

/-- Claim C2, counterexample: when the foreground query returned null (unknown
foreground — here, after the service redirected to the host app), the policy
still emits a BlockState for com.x, so condition (b) "p is the current
foreground package" does not hold for the emitted package. -/
theorem checkForBlockedApp_unknown_foreground_blocks :
    checkForBlockedApp exSelection exLimits exUsage none =
      some ⟨"com.x", "X", 60000, 60000⟩ ∧
    (none : Option String) ≠ some "com.x" :=
  ⟨by decide, by decide⟩

/-- Claim C2 (amended: condition (b) weakened to "p is the current foreground
package or the foreground identity is unknown"): whenever a BlockState exists
for a package, that package is in the limit map with a positive limit, the
foreground identity matches it or is unknown, and its usage sample (0 when
absent) has met its limit.  Limit values are non-negative as in the spec's
data model. -/
theorem blockState_invariant
    (sel : List SelectedApp) (limits todayUsage : NumMap)
    (foregroundApp : Option String) (b : BlockedApp)
    (hnn : ∀ p L, limits p = some L → 0 ≤ L)
    (h : checkForBlockedApp sel limits todayUsage foregroundApp = some b) :
    limits b.packageName = some b.limitMs ∧ 0 < b.limitMs ∧
      (foregroundApp = some b.packageName ∨ foregroundApp = none) ∧
      b.usageMs = usageOrZero todayUsage b.packageName ∧
      b.limitMs ≤ b.usageMs := by
  obtain ⟨h1, h2, h3, h4, h5⟩ := checkForBlockedApp_some _ _ _ _ _ h
  exact ⟨h1, lt_of_le_of_ne (hnn _ _ h1) (Ne.symm h2), h5, h3, h4⟩

/-- Claim C2 (witness for the amended theorem): the emitted BlockState of the
foreground scenario satisfies the amended invariant. -/
theorem blockState_invariant_witness :
    exLimits "com.x" = some (60000 : Ms) ∧ (0 : Ms) < 60000 ∧
      (some "com.x" = some "com.x" ∨ (some "com.x" : Option String) = none) ∧
      (60000 : Ms) = usageOrZero exUsage "com.x" ∧ (60000 : Ms) ≤ 60000 :=
  blockState_invariant exSelection exLimits exUsage (some "com.x")
    ⟨"com.x", "X", 60000, 60000⟩
    (by
      intro p L hpL
      by_cases hp : p = "com.x"
      · rw [show exLimits p = some 60000 from by simp [exLimits, hp]] at hpL
        injection hpL with hval
        rw [← hval]
        decide
      · rw [show exLimits p = none from by simp [exLimits, hp]] at hpL
        exact absurd hpL (by simp))
    (by decide)

/-- A usage-stats query result reporting 30 hours (108000000 ms) for com.x. -/
def overStats : List UsageStat := [⟨"com.x", 108000000⟩]

/-- A blocking configuration limiting com.x to 25 hours (90000000 ms). -/
def overCfg : BlockingConfig :=
  ⟨["com.x"], fun p => if p = "com.x" then some 90000000 else none⟩

/-- Claim C3, counterexample: an OS-reported usage of 30h (108000000 ms) is
used raw on the native comparison paths.  `BlockingService.getCurrentUsage`
returns 108000000, not the 24h cap 86400000, and against a 25h limit the
accessibility path decides to block although the clamped value 24h would not
have reached the limit — so usage is not clamped on every path that compares
usage against a limit. -/
theorem native_paths_do_not_clamp :
    BlockingService.getCurrentUsage overStats "com.x" = 108000000 ∧
    AccessibilityService.shouldBlockApp overCfg overStats "com.x" = true ∧
    min (108000000 : Ms) UsageStatsModule.maxDailyUsage = 86400000 ∧
    ¬(90000000 : Ms) ≤ 86400000 :=
  ⟨by decide, by decide, by decide, by decide⟩

/-- Claim C3 (amended: the 24h clamp applies only to the JS usage-refresh
path): every usage value in the map built by the JS-side
`getTodayUsageStats` is at most 24 hours (86400000 ms) — a 30h OS report is
treated as 24h there — while `BlockingService.getCurrentUsage`, used by the
native service and accessibility comparison paths, returns the raw
`totalTimeInForeground` of the found stat with no clamp. -/
theorem usage_clamped_on_js_path_only :
    (∀ (stats : List UsageStat) (p : String) (u : Ms),
        UsageStatsModule.usageStatsMap stats p = some u →
        u ≤ UsageStatsModule.maxDailyUsage) ∧
    (∀ (stats : List UsageStat) (s : UsageStat) (p : String),
        stats.find? (fun t => t.packageName == p) = some s →
        BlockingService.getCurrentUsage stats p = s.totalTimeInForeground) := by
  constructor
  · intro stats p u h
    exact usageStatsMap_foldl_le stats (fun _ => none) (by simp) p u h
  · intro stats s p h
    unfold BlockingService.getCurrentUsage
    rw [h]

/-- Claim C3 (witness for the amended theorem): the 30h report for com.x is
clamped to 24h on the JS path and returned raw by the native lookup. -/
theorem usage_clamped_on_js_path_only_witness :
    (86400000 : Ms) ≤ UsageStatsModule.maxDailyUsage ∧
    BlockingService.getCurrentUsage overStats "com.x" =
      (⟨"com.x", 108000000⟩ : UsageStat).totalTimeInForeground :=
  ⟨usage_clamped_on_js_path_only.1 overStats "com.x" 86400000 (by decide),
    usage_clamped_on_js_path_only.2 overStats ⟨"com.x", 108000000⟩ "com.x" (by decide)⟩

/-- Claim C4: for every package whose limit is 0 or absent, no evaluation of
the blocking policy — the JS tick, the native service tick (both
`shouldBlockApp` and the whole `checkAndBlock`), or the accessibility event —
emits a BlockState or issues a block for it, regardless of usage. -/
theorem zero_or_absent_limit_never_blocks :
    (∀ (sel : List SelectedApp) (limits todayUsage : NumMap)
        (foregroundApp : Option String) (p : String) (b : BlockedApp),
        (limits p = none ∨ limits p = some 0) →
        checkForBlockedApp sel limits todayUsage foregroundApp = some b →
        b.packageName ≠ p) ∧
    (∀ (cfg : BlockingConfig) (stats : List UsageStat)
        (appLabel : String → String) (p : String),
        (cfg.limits p = none ∨ cfg.limits p = some 0) →
        BlockingService.shouldBlockApp cfg stats appLabel p = none) ∧
    (∀ (env : BlockingService.TickEnv) (cfg : BlockingConfig) (p : String)
        (info : BlockingService.BlockInfo),
        env.configRead = .ok cfg →
        (cfg.limits p = none ∨ cfg.limits p = some 0) →
        BlockingService.checkAndBlock env ≠ .blocked p info) ∧
    (∀ (host : String) (cfg : BlockingConfig) (stats : List UsageStat)
        (event : Option AccessibilityService.AccessibilityEvent) (p : String),
        (cfg.limits p = none ∨ cfg.limits p = some 0) →
        AccessibilityService.onAccessibilityEvent host cfg stats event ≠ some p) := by
  have hsbw : ∀ (cfg : BlockingConfig) (usageOf : String → Ms)
      (appLabel : String → String) (p : String),
      (cfg.limits p = none ∨ cfg.limits p = some 0) →
      BlockingService.shouldBlockAppWith cfg usageOf appLabel p = none := by
    intro cfg usageOf appLabel p hlim
    unfold BlockingService.shouldBlockAppWith
    by_cases hmem : p ∈ cfg.selectedApps
    · rw [if_pos hmem]
      rcases hlim with hlim | hlim <;> rw [hlim]
      rfl
    · rw [if_neg hmem]
  refine ⟨?_, ?_, ?_, ?_⟩
  · intro sel limits todayUsage foregroundApp p b hlim h hpkg
    obtain ⟨h1, h2, _, _, _⟩ := checkForBlockedApp_some _ _ _ _ _ h
    rw [hpkg] at h1
    rcases hlim with hlim | hlim <;> rw [hlim] at h1
    · exact absurd h1 (by simp)
    · exact h2 (by injection h1 with hv; exact hv.symm)
  · intro cfg stats appLabel p hlim
    exact hsbw cfg _ appLabel p hlim
  · intro env cfg p info hcfg hlim h
    obtain ⟨cfg', hcfg', _, _, _, hsb⟩ := checkAndBlock_blocked_inv env p info h
    rw [hcfg] at hcfg'
    obtain rfl : cfg = cfg' := by injection hcfg'
    rw [hsbw cfg _ env.appLabel p hlim] at hsb
    exact absurd hsb (by simp)
  · intro host cfg stats event p hlim h
    have hfalse : AccessibilityService.shouldBlockApp cfg stats p = false := by
      unfold AccessibilityService.shouldBlockApp
      by_cases hmem : p ∈ cfg.selectedApps
      · rw [if_pos hmem]
        rcases hlim with hlim | hlim <;> rw [hlim]
        rfl
      · rw [if_neg hmem]
    cases event with
    | none => exact absurd h (by simp [AccessibilityService.onAccessibilityEvent])
    | some e =>
      unfold AccessibilityService.onAccessibilityEvent at h
      have h1 : (if e.eventType = AccessibilityService.EventType.windowStateChanged then
          match e.packageName with
          | none => none
          | some packageName =>
            if packageName = host then none
            else if AccessibilityService.shouldBlockApp cfg stats packageName then
              some packageName
            else none
        else none) = some p := h
      clear h
      by_cases htype : e.eventType = .windowStateChanged
      · rw [if_pos htype] at h1
        cases hpe : e.packageName with
        | none => rw [hpe] at h1; exact absurd h1 (by simp)
        | some q =>
          rw [hpe] at h1
          have h2 : (if q = host then none
              else if AccessibilityService.shouldBlockApp cfg stats q then some q
              else none) = some p := h1
          clear h1
          by_cases hq : q = host
          · rw [if_pos hq] at h2; exact absurd h2 (by simp)
          · rw [if_neg hq] at h2
            by_cases hqp : q = p
            · subst hqp
              rw [hfalse] at h2
              simp at h2
            · by_cases hblk : AccessibilityService.shouldBlockApp cfg stats q
              · rw [if_pos hblk] at h2
                exact hqp (by injection h2)
              · rw [if_neg hblk] at h2
                exact absurd h2 (by simp)
      · rw [if_neg htype] at h1
        exact absurd h1 (by simp)

/-- Claim C4 (witness): with com.x's limit set to 0 the native service's
`shouldBlockApp` returns null for com.x even with 30h of usage. -/
theorem zero_or_absent_limit_never_blocks_witness :
    BlockingService.shouldBlockApp ⟨["com.x"], fun _ => some 0⟩ overStats
      (fun _ => "X") "com.x" = none :=
  zero_or_absent_limit_never_blocks.2.1 ⟨["com.x"], fun _ => some 0⟩ overStats
    (fun _ => "X") "com.x" (Or.inr rfl)

theorem exLimits_nonneg : ∀ p L, exLimits p = some L → 0 ≤ L := by
  intro p L hpL
  unfold exLimits at hpL
  by_cases hp : p = "com.x"
  · rw [if_pos hp] at hpL
    injection hpL with hval
    rw [← hval]
    decide
  · rw [if_neg hp] at hpL
    exact absurd hpL (by simp)

/-- Claim C5: with non-negative limit values (the spec's data model bounds
`limitMs ≥ 0`), each evaluation of `checkForBlockedApp` returns at most one
BlockState: the one built from the first limited (non-zero-limit) package in
the selection list's insertion order whose usage has met or exceeded its limit
and whose foreground identity matches or is unknown, by the `find?` semantics
that stops scanning at the first match. -/
theorem checkForBlockedApp_first_match
    (sel : List SelectedApp) (limits todayUsage : NumMap) (foregroundApp : Option String)
    (hnn : ∀ p L, limits p = some L → 0 ≤ L) :
    checkForBlockedApp sel limits todayUsage foregroundApp =
      (sel.find? (firesB limits todayUsage foregroundApp)).map
        (mkBlock limits todayUsage) := by
  unfold checkForBlockedApp
  by_cases hgate : hasActiveLimits sel limits
  · rw [if_pos hgate, scanSelectedApps_eq_find]
  · rw [if_neg hgate]
    have hnone : sel.find? (firesB limits todayUsage foregroundApp) = none := by
      rw [List.find?_eq_none]
      intro app hmem hfires
      obtain ⟨L, hL, h0, _, _⟩ := (firesB_eq_true_iff _ _ _ _).mp hfires
      have hpos : 0 < L := lt_of_le_of_ne (hnn _ _ hL) (Ne.symm h0)
      exact hgate (hasActiveLimits_of_mem sel limits app L hmem hL hpos)
    rw [hnone]
    rfl

/-- Claim C5 (witness): the foreground scenario evaluation equals the first
firing selected app of the scan. -/
theorem checkForBlockedApp_first_match_witness :
    checkForBlockedApp exSelection exLimits exUsage (some "com.x") =
      (exSelection.find? (firesB exLimits exUsage (some "com.x"))).map
        (mkBlock exLimits exUsage) :=
  checkForBlockedApp_first_match exSelection exLimits exUsage (some "com.x") exLimits_nonneg

/-- Outcome of one JS `checkForBlockedApp` tick: `setBlocked` models
`setBlockedApp(app)` — a BlockState is emitted —, `setNone` models
`setBlockedApp(null)`, and `errorLogged` the outer catch
(useBlockingService.ts lines 173-175), which only logs and leaves the
previous blocked-app state in place. -/
inductive JsTickOutcome
  | setBlocked (b : BlockedApp)
  | setNone
  | errorLogged
deriving DecidableEq, Repr

/-- The OS state one JS evaluation runs against.  `prevUsage` is the usage
store's `todayUsage` before this tick; the fallible OS reads are the native
usage query awaited by `refreshUsage` and the foreground query awaited inside
the scan loop, each an `Except` whose `error` is a rejection on this tick. -/
structure JsTickEnv where
  selectedApps : List SelectedApp
  limits : NumMap
  prevUsage : NumMap
  usageQuery : Except Unit NumMap
  foregroundQuery : Except Unit (Option String)

/-- `useUsageStore.refreshUsage` (useUsageStore.ts lines 38-74) as seen by its
caller: its internal catch logs a throwing usage query and leaves `todayUsage`
unchanged, so `checkForBlockedApp` continues with the previous map. -/
def refreshUsageCaught (prevUsage : NumMap) (usageQuery : Except Unit NumMap) : NumMap :=
  match usageQuery with
  | .error _ => prevUsage
  | .ok newUsage => newUsage

/-- The scan loop of `checkForBlockedApp` with the fallible foreground query
awaited inside the loop (useBlockingService.ts line 152): a rejection there
propagates to the tick's outer catch, which logs and emits nothing. -/
def scanSelectedAppsCaught (limits todayUsage : NumMap)
    (foregroundQuery : Except Unit (Option String)) :
    List SelectedApp → JsTickOutcome
  | [] => .setNone
  | app :: rest =>
    match limits app.packageName with
    | none => scanSelectedAppsCaught limits todayUsage foregroundQuery rest
    | some limitMs =>
      if limitMs = 0 then scanSelectedAppsCaught limits todayUsage foregroundQuery rest
      else
        if limitMs ≤ usageOrZero todayUsage app.packageName then
          match foregroundQuery with
          | .error _ => .errorLogged
          | .ok foregroundApp =>
            if foregroundApp = some app.packageName ∨ foregroundApp = none then
              .setBlocked ⟨app.packageName, app.appName,
                usageOrZero todayUsage app.packageName, limitMs⟩
            else scanSelectedAppsCaught limits todayUsage foregroundQuery rest
        else scanSelectedAppsCaught limits todayUsage foregroundQuery rest

/-- One JS `checkForBlockedApp` tick (useBlockingService.ts lines 116-176)
with its fallible OS reads: the no-active-limits early return, then the usage
refresh (internally caught), then the scan with the fallible foreground
query. -/
def checkForBlockedAppCaught (env : JsTickEnv) : JsTickOutcome :=
  if hasActiveLimits env.selectedApps env.limits then
    scanSelectedAppsCaught env.limits (refreshUsageCaught env.prevUsage env.usageQuery)
      env.foregroundQuery env.selectedApps
  else .setNone

/-- The JS evaluation also keeps no state between ticks: each AppState change
re-runs `checkForBlockedApp` with no failure counter. -/
def runTicksJs : List JsTickEnv → List JsTickOutcome
  | [] => []
  | env :: rest => checkForBlockedAppCaught env :: runTicksJs rest

theorem scanSelectedAppsCaught_ok (limits todayUsage : NumMap) (fg : Option String)
    (sel : List SelectedApp) :
    scanSelectedAppsCaught limits todayUsage (.ok fg) sel =
      (match scanSelectedApps limits todayUsage fg sel with
        | some b => JsTickOutcome.setBlocked b
        | none => JsTickOutcome.setNone) := by
  induction sel with
  | nil => rfl
  | cons app rest ih =>
    simp only [scanSelectedAppsCaught, scanSelectedApps]
    cases limits app.packageName with
    | none => exact ih
    | some limitMs =>
      by_cases h0 : limitMs = 0
      · simp only [if_pos h0]; exact ih
      · simp only [if_neg h0]
        by_cases hu : limitMs ≤ usageOrZero todayUsage app.packageName
        · simp only [if_pos hu]
          by_cases hfg : fg = some app.packageName ∨ fg = none
          · simp [hfg]
          · simp only [if_neg hfg]
            exact ih
        · simp only [if_neg hu]; exact ih

theorem scanSelectedAppsCaught_error_ne (limits todayUsage : NumMap)
    (sel : List SelectedApp) (b : BlockedApp) :
    scanSelectedAppsCaught limits todayUsage (.error ()) sel ≠ .setBlocked b := by
  induction sel with
  | nil => exact fun hcontra => JsTickOutcome.noConfusion hcontra
  | cons app rest ih =>
    simp only [scanSelectedAppsCaught]
    cases limits app.packageName with
    | none => exact ih
    | some limitMs =>
      by_cases h0 : limitMs = 0
      · simp only [if_pos h0]; exact ih
      · simp only [if_neg h0]
        by_cases hu : limitMs ≤ usageOrZero todayUsage app.packageName
        · simp only [if_pos hu]
          exact fun hcontra => JsTickOutcome.noConfusion hcontra
        · simp only [if_neg hu]; exact ih

/-- A JS tick environment whose usage query throws while the usage store
still holds an over-limit sample for com.x and the foreground query
succeeds. -/
def staleUsageEnv : JsTickEnv :=
  ⟨exSelection, exLimits, exUsage, .error (), .ok (some "com.x")⟩

/-- Claim C6, counterexample: on this JS tick an OS read (the usage query
behind `refreshUsage`) throws, yet the evaluation continues with the usage
store's previous map — `refreshUsage` catches the rejection internally
(useUsageStore.ts lines 70-73) and leaves `todayUsage` unchanged — and emits
a BlockState for com.x, so a tick on which reading OS state throws can still
produce a new block. -/
theorem js_tick_usage_error_still_blocks :
    staleUsageEnv.usageQuery = .error () ∧
    checkForBlockedAppCaught staleUsageEnv =
      .setBlocked ⟨"com.x", "X", 60000, 60000⟩ :=
  ⟨rfl, by decide⟩

/-- Claim C6 (amended: a throwing usage query is caught internally and the
tick continues — the native path then compares against usage 0 and issues no
block, but the JS path re-reads the store's previous usage map and may still
emit from it): a native tick whose stored-config read throws ends in the
logged-error outcome and nothing else; a native tick whose process query or
usage query throws never ends blocked; a JS tick whose foreground query
throws never emits a BlockState (the rejection reaches the outer catch, which
only logs); a JS tick whose usage query throws behaves exactly as the pure
evaluation over the previous usage map; and both loops are stateless across
ticks — each run maps the tick function over the per-tick environments, so
the next tick re-evaluates unconditionally with no backoff or failure
counter. -/
theorem tick_error_no_block :
    (∀ env : BlockingService.TickEnv, env.configRead = .error () →
        BlockingService.checkAndBlock env = .errorLogged) ∧
    (∀ (env : BlockingService.TickEnv) (p : String) (info : BlockingService.BlockInfo),
        env.procQuery = .error () →
        BlockingService.checkAndBlock env ≠ .blocked p info) ∧
    (∀ (env : BlockingService.TickEnv) (p : String) (info : BlockingService.BlockInfo),
        env.usageQuery = .error () →
        BlockingService.checkAndBlock env ≠ .blocked p info) ∧
    (∀ (env : JsTickEnv) (b : BlockedApp),
        env.foregroundQuery = .error () →
        checkForBlockedAppCaught env ≠ .setBlocked b) ∧
    (∀ (env : JsTickEnv) (fg : Option String),
        env.usageQuery = .error () → env.foregroundQuery = .ok fg →
        checkForBlockedAppCaught env =
          (match checkForBlockedApp env.selectedApps env.limits env.prevUsage fg with
            | some b => JsTickOutcome.setBlocked b
            | none => JsTickOutcome.setNone)) ∧
    (∀ envs : List BlockingService.TickEnv,
        BlockingService.runTicks envs = envs.map BlockingService.checkAndBlock) ∧
    (∀ envs : List JsTickEnv,
        runTicksJs envs = envs.map checkForBlockedAppCaught) := by
  refine ⟨?_, ?_, ?_, ?_, ?_, ?_, ?_⟩
  · intro env h
    unfold BlockingService.checkAndBlock
    rw [h]
  · intro env p info h hblocked
    obtain ⟨cfg, _, _, hfg, _, _⟩ := checkAndBlock_blocked_inv env p info hblocked
    unfold BlockingService.getForegroundAppCaught at hfg
    rw [h] at hfg
    exact absurd hfg (by simp)
  · intro env p info h hblocked
    obtain ⟨cfg, _, _, _, _, hsb⟩ := checkAndBlock_blocked_inv env p info hblocked
    obtain ⟨_, limitMs, _, hpos, hr⟩ := shouldBlockAppWith_some _ _ _ _ _ hsb
    have husage : BlockingService.getCurrentUsageCaught env p = 0 := by
      unfold BlockingService.getCurrentUsageCaught
      rw [h]
    have hdec : (true : Bool) =
        decide (limitMs ≤ BlockingService.getCurrentUsageCaught env p) :=
      congrArg Prod.fst hr
    rw [husage] at hdec
    have hle : limitMs ≤ 0 := of_decide_eq_true hdec.symm
    exact absurd hpos (not_lt.mpr hle)
  · intro env b herr hcontra
    unfold checkForBlockedAppCaught at hcontra
    by_cases hgate : hasActiveLimits env.selectedApps env.limits
    · rw [if_pos hgate, herr] at hcontra
      exact scanSelectedAppsCaught_error_ne _ _ _ b hcontra
    · rw [if_neg hgate] at hcontra
      exact JsTickOutcome.noConfusion hcontra
  · intro env fg herr hok
    unfold checkForBlockedAppCaught
    have husage : refreshUsageCaught env.prevUsage env.usageQuery = env.prevUsage := by
      unfold refreshUsageCaught
      rw [herr]
    rw [husage, hok]
    unfold checkForBlockedApp
    by_cases hgate : hasActiveLimits env.selectedApps env.limits
    · rw [if_pos hgate, if_pos hgate]
      exact scanSelectedAppsCaught_ok _ _ _ _
    · rw [if_neg hgate, if_neg hgate]
  · intro envs
    induction envs with
    | nil => rfl
    | cons env rest ih => simp [BlockingService.runTicks, ih]
  · intro envs
    induction envs with
    | nil => rfl
    | cons env rest ih => simp [runTicksJs, ih]

/-- A native environment on which every OS read throws. -/
def errEnv : BlockingService.TickEnv :=
  ⟨"com.dailyfocus", .error (), .error (), .error (), fun _ => "X"⟩

/-- A JS tick environment whose foreground query throws while com.x is over
its limit. -/
def fgErrEnv : JsTickEnv :=
  ⟨exSelection, exLimits, exUsage, .ok exUsage, .error ()⟩

/-- Claim C6 (witness for the amended theorem): a native tick whose
stored-config read throws ends in the logged-error outcome, and a JS tick
whose foreground query throws does not emit the over-limit BlockState. -/
theorem tick_error_no_block_witness :
    BlockingService.checkAndBlock errEnv = .errorLogged ∧
    checkForBlockedAppCaught fgErrEnv ≠ .setBlocked ⟨"com.x", "X", 60000, 60000⟩ :=
  ⟨tick_error_no_block.1 errEnv rfl,
    tick_error_no_block.2.2.2.1 fgErrEnv ⟨"com.x", "X", 60000, 60000⟩ rfl⟩

/-- Claim C7: when the set of packages with a positive limit is empty — in
particular right after the last remaining limit is removed from the store —
the `useBlockingService` effect decides stop (the service is stopped and its
timer cancelled), the policy evaluation returns immediately with no usage
refresh and no foreground query, and the native tick of an empty stored
config stops the service itself. -/
theorem empty_limits_monitor_idle :
    (∀ (sel : List SelectedApp) (limits : NumMap),
        (∀ p L, limits p = some L → L ≤ 0) →
        serviceEffect sel limits = .stop) ∧
    (∀ (sel : List SelectedApp) (limits todayUsage : NumMap) (fg : Option String),
        (∀ p L, limits p = some L → L ≤ 0) →
        checkForBlockedAppTraced sel limits todayUsage fg = ⟨none, 0, 0⟩) ∧
    (∀ (env : BlockingService.TickEnv) (cfg : BlockingConfig),
        env.configRead = .ok cfg → cfg.selectedApps = [] →
        BlockingService.checkAndBlock env = .stopped) ∧
    (∀ (sel : List SelectedApp) (limits : NumMap) (p : String),
        (∀ q L, q ≠ p → limits q = some L → L ≤ 0) →
        serviceEffect sel (LimitsStore.removeLimit limits p) = .stop) := by
  have hstop : ∀ (sel : List SelectedApp) (limits : NumMap),
      (∀ p L, limits p = some L → L ≤ 0) → serviceEffect sel limits = .stop := by
    intro sel limits h
    unfold serviceEffect
    rw [hasActiveLimits_eq_false sel limits h]
    rfl
  refine ⟨hstop, ?_, ?_, ?_⟩
  · intro sel limits todayUsage fg h
    unfold checkForBlockedAppTraced
    rw [hasActiveLimits_eq_false sel limits h]
    rfl
  · intro env cfg hcfg hsel
    unfold BlockingService.checkAndBlock
    rw [hcfg]
    show (if cfg.selectedApps = [] then BlockingService.TickOutcome.stopped
      else
        match BlockingService.getForegroundAppCaught env with
        | none => BlockingService.TickOutcome.noAction
        | some fg =>
          if fg = env.host then BlockingService.TickOutcome.noAction
          else
            match BlockingService.shouldBlockAppWith cfg
                (BlockingService.getCurrentUsageCaught env) env.appLabel fg with
            | none => BlockingService.TickOutcome.noAction
            | some (shouldBlock, info) =>
              if shouldBlock then BlockingService.TickOutcome.blocked fg info
              else BlockingService.TickOutcome.cleared) =
      BlockingService.TickOutcome.stopped
    rw [if_pos hsel]
  · intro sel limits p h
    apply hstop
    intro q L hq
    unfold LimitsStore.removeLimit at hq
    have hq' : (if q = p then none else limits q) = some L := hq
    by_cases hqp : q = p
    · rw [if_pos hqp] at hq'
      exact absurd hq' (by simp)
    · rw [if_neg hqp] at hq'
      exact h q L hqp hq'

/-- An environment whose stored config has no selected apps and no limits. -/
def emptyEnv : BlockingService.TickEnv :=
  ⟨"com.dailyfocus", .ok ⟨[], fun _ => none⟩, .ok [], .ok [], fun _ => "X"⟩

/-- Claim C7 (witness): with an empty limit map the effect stops the service,
the policy evaluation issues no queries, and the native tick of an empty
config stops itself. -/
theorem empty_limits_monitor_idle_witness :
    serviceEffect [] (fun _ => none) = .stop ∧
    checkForBlockedAppTraced exSelection (fun _ => none) exUsage none = ⟨none, 0, 0⟩ ∧
    BlockingService.checkAndBlock emptyEnv = .stopped :=
  ⟨empty_limits_monitor_idle.1 [] (fun _ => none) (fun _ _ h => absurd h (by simp)),
   empty_limits_monitor_idle.2.1 exSelection (fun _ => none) exUsage none
     (fun _ _ h => absurd h (by simp)),
   empty_limits_monitor_idle.2.2.1 emptyEnv ⟨[], fun _ => none⟩ rfl rfl⟩

/-- Claim C8: no foreground-detection implementation ever reports the host
app's own package: the polling module resolves null when the detected package
is the host; the native service's process scan skips the host and never
returns it; and the accessibility handler skips every event whose package is
the host. -/
theorem foreground_detection_excludes_host :
    (∀ (host : String) (procs : List ProcessInfo) (appLabel : String → Option String)
        (fgApp : ForegroundAppModule.ForegroundApp),
        ForegroundAppModule.getCurrentForegroundApp host procs appLabel = some fgApp →
        fgApp.packageName ≠ host) ∧
    (∀ (host : String) (procs : List ProcessInfo),
        BlockingService.getForegroundApp host procs ≠ some host) ∧
    (∀ (host : String) (cfg : BlockingConfig) (stats : List UsageStat)
        (event : AccessibilityService.AccessibilityEvent),
        event.packageName = some host →
        AccessibilityService.onAccessibilityEvent host cfg stats (some event) = none) := by
  refine ⟨?_, ?_, ?_⟩
  · intro host procs appLabel fgApp h
    unfold ForegroundAppModule.getCurrentForegroundApp at h
    cases hdet : ForegroundAppModule.getForegroundAppAndroid10Plus procs with
    | none => rw [hdet] at h; exact absurd h (by simp)
    | some pkg =>
      rw [hdet] at h
      have h' : (if pkg = host then none
          else match appLabel pkg with
            | none => none
            | some appName =>
              some (⟨pkg, appName⟩ : ForegroundAppModule.ForegroundApp)) = some fgApp := h
      clear h
      by_cases hpkg : pkg = host
      · rw [if_pos hpkg] at h'; exact absurd h' (by simp)
      · rw [if_neg hpkg] at h'
        cases hlbl : appLabel pkg with
        | none => rw [hlbl] at h'; exact absurd h' (by simp)
        | some nm =>
          rw [hlbl] at h'
          have heq : (⟨pkg, nm⟩ : ForegroundAppModule.ForegroundApp) = fgApp := by
            injection h'
          rw [← heq]
          exact hpkg
  · intro host procs
    induction procs with
    | nil => simp [BlockingService.getForegroundApp]
    | cons proc rest ih =>
      unfold BlockingService.getForegroundApp
      by_cases himp : proc.importance = IMPORTANCE_FOREGROUND
      · rw [if_pos himp]
        cases hhd : proc.pkgList.head? with
        | none => exact ih
        | some pkg =>
          show (if pkg ≠ host then some pkg
            else BlockingService.getForegroundApp host rest) ≠ some host
          by_cases hne : pkg ≠ host
          · rw [if_pos hne]
            intro hcontra
            exact hne (by injection hcontra)
          · rw [if_neg hne]
            exact ih
      · rw [if_neg himp]
        exact ih
  · intro host cfg stats event hpe
    unfold AccessibilityService.onAccessibilityEvent
    show (if event.eventType = AccessibilityService.EventType.windowStateChanged then
        match event.packageName with
        | none => none
        | some packageName =>
          if packageName = host then none
          else if AccessibilityService.shouldBlockApp cfg stats packageName then
            some packageName
          else none
      else none) = none
    by_cases htype : event.eventType = .windowStateChanged
    · rw [if_pos htype, hpe]
      simp
    · rw [if_neg htype]

/-- Claim C8 (witness): a foreground process list whose only foreground
process is the host yields null from the module, the service scan does not
return the host, and a window-change event from the host is skipped. -/
theorem foreground_detection_excludes_host_witness :
    (ForegroundAppModule.ForegroundApp.mk "com.dailyfocus" "Boundly").packageName ≠
        "com.dailyfocus" ∨
      (BlockingService.getForegroundApp "com.dailyfocus"
          [⟨IMPORTANCE_FOREGROUND, ["com.dailyfocus"]⟩] ≠ some "com.dailyfocus" ∧
        AccessibilityService.onAccessibilityEvent "com.dailyfocus" overCfg overStats
          (some ⟨.windowStateChanged, some "com.dailyfocus"⟩) = none) :=
  Or.inr
    ⟨foreground_detection_excludes_host.2.1 "com.dailyfocus"
        [⟨IMPORTANCE_FOREGROUND, ["com.dailyfocus"]⟩],
      foreground_detection_excludes_host.2.2 "com.dailyfocus" overCfg overStats
        ⟨.windowStateChanged, some "com.dailyfocus"⟩ rfl⟩

/-- Claim C9: for every package p and limit value v, after `setLimit(p, v)`
the store's `getLimit(p)` returns v, after `removeLimit(p)` it returns
undefined, and in both cases the stored limit of every package other than p
is unchanged. -/
theorem limits_store_set_remove_frame :
    (∀ (limits : NumMap) (p : String) (v : Ms),
        LimitsStore.getLimit (LimitsStore.setLimit limits p v) p = some v) ∧
    (∀ (limits : NumMap) (p : String),
        LimitsStore.getLimit (LimitsStore.removeLimit limits p) p = none) ∧
    (∀ (limits : NumMap) (p : String) (v : Ms) (q : String), q ≠ p →
        LimitsStore.getLimit (LimitsStore.setLimit limits p v) q =
          LimitsStore.getLimit limits q) ∧
    (∀ (limits : NumMap) (p : String) (q : String), q ≠ p →
        LimitsStore.getLimit (LimitsStore.removeLimit limits p) q =
          LimitsStore.getLimit limits q) := by
  refine ⟨?_, ?_, ?_, ?_⟩
  · intro limits p v
    simp [LimitsStore.getLimit, LimitsStore.setLimit]
  · intro limits p
    simp [LimitsStore.getLimit, LimitsStore.removeLimit]
  · intro limits p v q hq
    simp [LimitsStore.getLimit, LimitsStore.setLimit, hq]
  · intro limits p q hq
    simp [LimitsStore.getLimit, LimitsStore.removeLimit, hq]

/-- Claim C9 (witness): setting or removing com.y's limit leaves com.x's
stored limit unchanged. -/
theorem limits_store_set_remove_frame_witness :
    LimitsStore.getLimit (LimitsStore.setLimit exLimits "com.y" 1000) "com.x" =
      LimitsStore.getLimit exLimits "com.x" ∧
    LimitsStore.getLimit (LimitsStore.removeLimit exLimits "com.y") "com.x" =
      LimitsStore.getLimit exLimits "com.x" :=
  ⟨limits_store_set_remove_frame.2.2.1 exLimits "com.y" 1000 "com.x" (by decide),
    limits_store_set_remove_frame.2.2.2 exLimits "com.y" "com.x" (by decide)⟩

/-- Claim C10: in the JS evaluation, a limited package (limit > 0) whose name
is absent from the today-usage map is treated as having usage 0 and is
therefore never emitted as the BlockState of that evaluation. -/
theorem absent_usage_never_blocked
    (sel : List SelectedApp) (limits todayUsage : NumMap) (fg : Option String)
    (p : String) (L : Ms) (b : BlockedApp)
    (husage : todayUsage p = none) (hL : limits p = some L) (hLpos : 0 < L) :
    usageOrZero todayUsage p = 0 ∧
      (checkForBlockedApp sel limits todayUsage fg = some b → b.packageName ≠ p) := by
  have h0 : usageOrZero todayUsage p = 0 := by
    unfold usageOrZero
    rw [husage]
    rfl
  refine ⟨h0, ?_⟩
  intro h hpkg
  obtain ⟨h1, _, h3, h4, _⟩ := checkForBlockedApp_some _ _ _ _ _ h
  rw [hpkg] at h1 h3
  rw [hL] at h1
  injection h1 with hv
  rw [h0] at h3
  rw [h3, ← hv] at h4
  exact absurd h4 (not_le.mpr hLpos)

/-- Claim C10 (witness): com.x limited to a minute but absent from the usage
map counts as usage 0 and cannot be the emitted BlockState's package. -/
theorem absent_usage_never_blocked_witness :
    usageOrZero (fun _ => none) "com.x" = 0 ∧
      (checkForBlockedApp exSelection exLimits (fun _ => none) (some "com.x") =
          some ⟨"com.x", "X", 0, 60000⟩ →
        (⟨"com.x", "X", 0, 60000⟩ : BlockedApp).packageName ≠ "com.x") :=
  absent_usage_never_blocked exSelection exLimits (fun _ => none) (some "com.x")
    "com.x" 60000 ⟨"com.x", "X", 0, 60000⟩ rfl rfl (by decide)

end Boundly

